import Mathlib

/-!
Verification development for the follow-export pipeline of
`src/service/basic/follow_service.py` (class `FollowService`):
the paginated fetch loop `get_all_follow`, the merge step
`merge_follow_files`, and the run-label recovery `get_timestamp`.

The Python code is shallowly embedded: JSON values are an inductive
type, the filesystem run directory is an association list from file
names to file contents, fallible Python operations (`[]` item access,
`.get` attribute access, `len`, `list.extend`, `int(...)`) are
`Except`-valued functions mirroring the exception each operation
raises, and the unbounded `while True` loop is given explicit fuel.
-/

namespace FollowSvc

/-- JSON tree as produced by Python's `json` module.  Objects are
association lists in insertion order (Python dicts preserve insertion
order; keys of parsed JSON are unique).  Numeric literals are modelled
as integers; floating-point bodies are outside the scope of the
properties proved here. -/
inductive Json where
  | null : Json
  | bool (b : Bool) : Json
  | int (n : Int) : Json
  | str (s : String) : Json
  | arr (xs : List Json) : Json
  | obj (fields : List (String × Json)) : Json

/-- Exceptions that the embedded Python fragments can raise. -/
inductive PyError where
  | keyError (k : String) : PyError
  | typeError : PyError
  | attributeError : PyError
  | valueError : PyError
  | ioError : PyError
deriving DecidableEq

/-- First-binding association lookup, the model of Python dict key
lookup (parsed-JSON dicts have unique keys). -/
def lookupA : List (String × Json) → String → Option Json
  | [], _ => none
  | (k, v) :: rest, key => if k == key then some v else lookupA rest key

/-- Python `d[k]` item access: `KeyError` when the key is absent,
`TypeError` when the value is not a dict (e.g. indexing a list or
`None` with a string key). -/
def pyGetItem (j : Json) (k : String) : Except PyError Json :=
  match j with
  | .obj fields =>
    match lookupA fields k with
    | some v => .ok v
    | none => .error (.keyError k)
  | _ => .error .typeError

/-- Python `d.get(k, default)`: `AttributeError` when the receiver is
not a dict (lists and strings have no `.get`). -/
def pyDictGetD (j : Json) (k : String) (d : Json) : Except PyError Json :=
  match j with
  | .obj fields => .ok ((lookupA fields k).getD d)
  | _ => .error .attributeError

/-- Python `len(x)` on a JSON value: sized for lists, strings and
dicts, `TypeError` otherwise (`None`, booleans, integers). -/
def pyLen (j : Json) : Except PyError Nat :=
  match j with
  | .arr xs => .ok xs.length
  | .str s => .ok s.length
  | .obj fields => .ok fields.length
  | _ => .error .typeError

/-- Python `acc.extend(u)`: extends by the elements of an iterable
(list elements, string characters as one-character strings, dict
keys), `TypeError` on non-iterables. -/
def pyExtend (acc : List Json) (u : Json) : Except PyError (List Json) :=
  match u with
  | .arr xs => .ok (acc ++ xs)
  | .str s => .ok (acc ++ s.toList.map (fun c => Json.str (String.mk [c])))
  | .obj fields => .ok (acc ++ fields.map (fun p => Json.str p.1))
  | _ => .error .typeError

/-- Python `isinstance(x, int)` where `x` came from `dict.get` (so it
may be `None`): integers and booleans (`bool` subclasses `int`) pass,
everything else, including an absent value, fails. -/
def pyIsInt : Option Json → Bool
  | some (.int _) => true
  | some (.bool _) => true
  | _ => false

/-- Python `x == 0` for a value obtained from `dict.get`:
`True == 0` is `False`, `False == 0` is `True`, non-numbers compare
unequal to `0`. -/
def pyEqZero : Option Json → Bool
  | some (.int n) => n == 0
  | some (.bool b) => b == false
  | _ => false

/-- Python whitespace stripped by `int(str)`. -/
def pyIsSpace (c : Char) : Bool := c.isWhitespace

/-- Digit-run parser used by `int(str)`: decimal digits with single
underscores allowed between digits (`"1_0"` is 10, `"1__0"` and a
trailing underscore fail). -/
def pyDigitsCore : Nat → List Char → Option Nat
  | acc, [] => some acc
  | acc, c :: rest =>
    if c.isDigit then pyDigitsCore (acc * 10 + (c.toNat - 48)) rest
    else if c == '_' then
      match rest with
      | c2 :: rest2 =>
        if c2.isDigit then pyDigitsCore (acc * 10 + (c2.toNat - 48)) rest2 else none
      | [] => none
    else none

/-- Nonempty digit run starting with a digit. -/
def pyParseDigits : List Char → Option Nat
  | [] => none
  | c :: rest => if c.isDigit then pyDigitsCore (c.toNat - 48) rest else none

/-- Python `int(s)` on a string: optional surrounding whitespace, an
optional sign, then a digit run; `none` models the `ValueError` that
`int` raises on anything else.  (Non-ASCII decimal digits are outside
the scope of the inputs considered here.) -/
def pyIntOfStr (s : String) : Option Int :=
  let cs := ((s.toList.dropWhile pyIsSpace).reverse.dropWhile pyIsSpace).reverse
  match cs with
  | [] => none
  | c :: rest =>
    if c == '-' then (pyParseDigits rest).map (fun n => -(n : Int))
    else if c == '+' then (pyParseDigits rest).map (fun n => (n : Int))
    else (pyParseDigits (c :: rest)).map (fun n => (n : Int))

/-- Strip a literal pattern from the front of a character list,
returning the remainder on a match. -/
def stripLit : List Char → List Char → Option (List Char)
  | [], cs => some cs
  | _ :: _, [] => none
  | p :: ps, c :: rest => if c == p then stripLit ps rest else none

/-- Left-to-right non-overlapping replacement, the semantics of
Python's `str.replace`; fuel bounds the scan (the input length
suffices since every step consumes at least one character). -/
def replaceAllAux (pat repl : List Char) : Nat → List Char → List Char
  | 0, cs => cs
  | _ + 1, [] => []
  | fuel + 1, c :: rest =>
    match stripLit pat (c :: rest) with
    | some remaining => repl ++ replaceAllAux pat repl fuel remaining
    | none => c :: replaceAllAux pat repl fuel rest

/-- Python `s.replace(pat, repl)` for a nonempty pattern (the only use
in the source replaces the literals `'response'` and `'.json'`). -/
def pyReplace (s pat repl : String) : String :=
  match pat.toList with
  | [] => s
  | _ :: _ => String.mk (replaceAllAux pat.toList repl.toList s.toList.length s.toList)

/-- Python `s.endswith(pat)`. -/
def pyEndsWith (s pat : String) : Bool :=
  List.isSuffixOf pat.toList s.toList

/-- One transport response, as consumed by `get_all_follow`
(`follow_api.get_follow(page)` is the external transport collaborator):
an HTTP status code, the raw body text, and the body's JSON parse
(`none` when `response.json()` would raise `ValueError`). -/
structure HttpResponse where
  status_code : Int
  text : String
  json : Option Json

/-- Outcome of one iteration of the `while True` loop of
`get_all_follow` (follow_service.py lines 46-91). -/
inductive StepResult where
  | breakRun : StepResult
  | crash (e : PyError) : StepResult
  | saveTxt (text : String) : StepResult
  | saveJsonStop (j : Json) : StepResult
  | saveJsonNext (j : Json) : StepResult

/-- One loop iteration of `get_all_follow`, translated in source
order: non-200 status logs and breaks (lines 48-53); a body that is
not JSON logs and breaks (lines 55-62); otherwise the `try` block of
lines 64-84 runs, whose `ValueError`s (non-integer or missing cursor
fields, line 72-73) are caught at line 86 by writing the raw text to
`response<page>.txt` and continuing, while `KeyError`/`TypeError`
from `json_content['data']['follows']` and `AttributeError`/
`TypeError` from `.get`/`len` escape uncaught. -/
def processPage (resp : HttpResponse) : StepResult :=
  if resp.status_code ≠ 200 then .breakRun
  else
    match resp.json with
    | none => .breakRun
    | some json_content =>
      match pyGetItem json_content "data" with
      | .error e => .crash e
      | .ok d =>
        match pyGetItem d "follows" with
        | .error e => .crash e
        | .ok follows =>
          match follows with
          | .obj fields =>
            let next_cursor := lookupA fields "next_cursor"
            let previous_cursor := lookupA fields "previous_cursor"
            let total_number := lookupA fields "total_number"
            let users := (lookupA fields "users").getD (Json.arr [])
            match pyLen users with
            | .error e => .crash e
            | .ok _ =>
              if pyIsInt next_cursor && pyIsInt previous_cursor && pyIsInt total_number then
                if pyEqZero next_cursor then .saveJsonStop json_content
                else .saveJsonNext json_content
              else .saveTxt resp.text
          | _ => .crash .attributeError

/-- A per-page artifact written into the run directory: either the
parsed body dumped to `response<page>.json` or the raw text written
to `response<page>.txt`. -/
inductive Artifact where
  | jsonFile (j : Json) : Artifact
  | txtFile (text : String) : Artifact

/-- How the fetch loop ended: `finished` covers both `break` exits
(after which `merge_follow_files` runs), `crashed` is an uncaught
exception (no merge), `fuelOut` means the fuel bound was reached
before the loop decided (undetermined). -/
inductive RunEnd where
  | finished : RunEnd
  | crashed (e : PyError) : RunEnd
  | fuelOut : RunEnd
deriving DecidableEq

/-- The `while True` loop of `get_all_follow`, starting at `page` and
driven by the transport `t`; returns the page-numbered artifacts in
the order they were written, plus how the loop ended. -/
def fetchLoop (t : Nat → HttpResponse) : Nat → Nat → List (Nat × Artifact) × RunEnd
  | 0, _ => ([], .fuelOut)
  | fuel + 1, page =>
    match processPage (t page) with
    | .breakRun => ([], .finished)
    | .crash e => ([], .crashed e)
    | .saveTxt text =>
      let r := fetchLoop t fuel (page + 1)
      ((page, .txtFile text) :: r.1, r.2)
    | .saveJsonStop j => ([(page, .jsonFile j)], .finished)
    | .saveJsonNext j =>
      let r := fetchLoop t fuel (page + 1)
      ((page, .jsonFile j) :: r.1, r.2)

/-- Contents of one file in the run directory, abstracted by its JSON
parse: `jsonData j` is a file whose text is valid JSON parsing to `j`
(as `json.dump` of a parsed body always is), `rawText` a file whose
text is not valid JSON, so `json.load` raises `ValueError` on it. -/
inductive FileContent where
  | jsonData (j : Json) : FileContent
  | rawText (text : String) : FileContent

/-- The run-directory entry written for one page artifact
(`response<page>.json` via `json.dump`, or `response<page>.txt` with
the raw text; a raw text that happened to be valid JSON is never
loaded because merge filters on the `.json` name). -/
def artifactEntry : Nat × Artifact → String × FileContent
  | (page, .jsonFile j) => ("response" ++ toString page ++ ".json", .jsonData j)
  | (page, .txtFile text) => ("response" ++ toString page ++ ".txt", .rawText text)

/-- Sort key of line 103:
`int(x.replace('response', '').replace('.json', ''))`; the
`ValueError` from `int` propagates out of `sorted`. -/
def sortKeyOf (name : String) : Except PyError Int :=
  match pyIntOfStr (pyReplace (pyReplace name "response" "") ".json" "") with
  | some n => .ok n
  | none => .error .valueError

/-- Keys computed for the list being sorted, in list order; the first
failing key raises. -/
def computeKeys : List String → Except PyError (List (Int × String))
  | [] => .ok []
  | n :: rest =>
    match sortKeyOf n with
    | .error e => .error e
    | .ok k =>
      match computeKeys rest with
      | .error e => .error e
      | .ok ks => .ok ((k, n) :: ks)

/-- Stable insertion of a later element after all existing elements
with key less than or equal to its key. -/
def insertByKey (x : Int × String) : List (Int × String) → List (Int × String)
  | [] => [x]
  | y :: rest => if y.1 ≤ x.1 then y :: insertByKey x rest else x :: y :: rest

/-- Stable insertion pass over the input in order. -/
def sortInsAll (acc : List (Int × String)) : List (Int × String) → List (Int × String)
  | [] => acc
  | x :: rest => sortInsAll (insertByKey x acc) rest

/-- Stable sort by key, the semantics of Python's `sorted(..., key=...)`
(Python's sort is stable), realised as stable insertion sort. -/
def sortPairs (l : List (Int × String)) : List (Int × String) :=
  sortInsAll [] l

/-- Line 102-103: filter the directory listing to `.json` names and
stably sort them by the numeric key. -/
def sortNames (names : List String) : Except PyError (List String) :=
  match computeKeys names with
  | .error e => .error e
  | .ok ks => .ok ((sortPairs ks).map Prod.snd)

/-- First-binding lookup of a file name in the run directory (file
names in a real directory are unique). -/
def lookupF : List (String × FileContent) → String → Option FileContent
  | [], _ => none
  | (k, v) :: rest, key => if k == key then some v else lookupF rest key

/-- Opening a file of the run directory by name and `json.load`-ing
it: a missing name is an I/O failure (unreachable for names obtained
from the listing), a non-JSON body raises `ValueError`. -/
def openJson (dir : List (String × FileContent)) (name : String) : Except PyError Json :=
  match lookupF dir name with
  | none => .error .ioError
  | some (.jsonData j) => .ok j
  | some (.rawText _) => .error .valueError

/-- Loop body of lines 115-121 for one file: `json.load`, then
`json_content['data']['follows'].get('users', [])`. -/
def loadEntryUsers (dir : List (String × FileContent)) (name : String) :
    Except PyError Json :=
  match openJson dir name with
  | .error e => .error e
  | .ok body =>
    match pyGetItem body "data" with
    | .error e => .error e
    | .ok d =>
      match pyGetItem d "follows" with
      | .error e => .error e
      | .ok follows =>
        match follows with
        | .obj fields => .ok ((lookupA fields "users").getD (Json.arr []))
        | _ => .error .attributeError

/-- The accumulation loop of lines 115-121: per file, extract the
users value, take its `len` (for the `count` log), and
`all_users.extend(users)`. -/
def loadAllUsers (dir : List (String × FileContent)) :
    List String → List Json → Except PyError (List Json)
  | [], acc => .ok acc
  | name :: rest, acc =>
    match loadEntryUsers dir name with
    | .error e => .error e
    | .ok users =>
      match pyLen users with
      | .error e => .error e
      | .ok _ =>
        match pyExtend acc users with
        | .error e => .error e
        | .ok acc2 => loadAllUsers dir rest acc2

/-- Replace the first binding of a key in a dict, or append it, the
semantics of Python dict item assignment (insertion order kept). -/
def setKey : List (String × Json) → String → Json → List (String × Json)
  | [], k, v => [(k, v)]
  | (k0, v0) :: rest, k, v =>
    if k0 == k then (k, v) :: rest else (k0, v0) :: setKey rest k v

/-- Line 123: `first_json_content['data']['follows']['users'] =
all_users`, as a functional update of the aliased nested dicts; item
access and item assignment raise as in Python. -/
def pySetUsers (template : Json) (users : List Json) : Except PyError Json :=
  match template with
  | .obj tf =>
    match lookupA tf "data" with
    | none => .error (.keyError "data")
    | some d =>
      match d with
      | .obj df =>
        match lookupA df "follows" with
        | none => .error (.keyError "follows")
        | some f =>
          match f with
          | .obj ff =>
            .ok (.obj (setKey tf "data"
              (.obj (setKey df "follows" (.obj (setKey ff "users" (.arr users)))))))
          | _ => .error .typeError
      | _ => .error .typeError
  | _ => .error .typeError

/-- Per-position match of the regex `\d{8}_\d{6}` (the pattern has
fixed width, so matching at a position is deterministic). -/
def matchTsAt (cs : List Char) : Option (List Char) :=
  let d8 := cs.take 8
  if d8.length == 8 && d8.all Char.isDigit then
    match cs.drop 8 with
    | '_' :: rest =>
      let d6 := rest.take 6
      if d6.length == 6 && d6.all Char.isDigit then some (d8 ++ '_' :: d6) else none
    | _ => none
  else none

/-- Leftmost `re.search` scan for the timestamp pattern. -/
def findTsFrom : List Char → Option String
  | [] => none
  | c :: rest =>
    match matchTsAt (c :: rest) with
    | some m => some (String.mk m)
    | none => findTsFrom rest

/-- Declaration of `get_timestamp` (lines 135-143): recover the run
label from the folder path by regex search, or fall back to the
current time `now` (passed explicitly since the embedding is pure). -/
def get_timestamp (source_folder now : String) : String :=
  match findTsFrom source_folder.toList with
  | some ts => ts
  | none => now

/-- Successful merge outcome: the name of the file written under
`processed/follow/` and the value the Python function returns
(`first_json_content` after the in-place update, which is also the
content written to the output file). -/
structure MergeSuccess where
  output_file : String
  retval : Json

/-- The `.json`-named files of a directory listing, in listing order
(the comprehension of line 102). -/
def listJsonNames (dir : List (String × FileContent)) : List String :=
  (dir.map Prod.fst).filter (fun n => pyEndsWith n ".json")

/-- Declaration of `merge_follow_files` (lines 99-133) over a run
directory given as an association list of file names to contents in
listing order.  `.ok none` is the `return None` of line 107 (no
`.json` files, nothing written); `.ok (some r)` writes
`merged_follows_<timestamp>.json` and returns the merged structure;
`.error` is an uncaught exception. -/
def merge_follow_files (dir : List (String × FileContent))
    (source_folder now : String) : Except PyError (Option MergeSuccess) :=
  match sortNames (listJsonNames dir) with
  | .error e => .error e
  | .ok files =>
    match files with
    | [] => .ok none
    | first :: _ =>
      match openJson dir first with
      | .error e => .error e
      | .ok first_json_content =>
        match loadAllUsers dir files [] with
        | .error e => .error e
        | .ok all_users =>
          match pySetUsers first_json_content all_users with
          | .error e => .error e
          | .ok merged =>
            .ok (some
              { output_file :=
                  "merged_follows_" ++ get_timestamp source_folder now ++ ".json"
                retval := merged })

/-- Declaration of `get_all_follow` (lines 37-97): run the fetch loop
from page 1, then, unless an exception escaped the loop, merge the
run directory `raw/follow/<nowTs>` built from the persisted
artifacts and return the merge result (which is what line 97
returns).  `none` means the fuel bound was reached. -/
def get_all_follow (t : Nat → HttpResponse) (fuel : Nat)
    (nowTs mergeNow : String) : Option (Except PyError (Option MergeSuccess)) :=
  match fetchLoop t fuel 1 with
  | (_, .fuelOut) => none
  | (_, .crashed e) => some (.error e)
  | (arts, .finished) =>
    some (merge_follow_files (arts.map artifactEntry)
      ("raw/follow/" ++ nowTs) mergeNow)

/-- Reader for the `data.follows.users` list of a merged or page
body (used to state what the merged output's user list is). -/
def mergedUsers (j : Json) : Option (List Json) :=
  match j with
  | .obj tf =>
    match lookupA tf "data" with
    | some (.obj df) =>
      match lookupA df "follows" with
      | some (.obj ff) =>
        match lookupA ff "users" with
        | some (.arr xs) => some xs
        | _ => none
      | _ => none
    | _ => none
  | _ => none

/-- The two nested item accesses `body['data']['follows']`. -/
def pyGetFollows (b : Json) : Except PyError Json :=
  match pyGetItem b "data" with
  | .error e => .error e
  | .ok d => pyGetItem d "follows"

/-- Whether a merge outcome is an uncaught exception. -/
def isErrorM (r : Except PyError (Option MergeSuccess)) : Bool :=
  match r with
  | .error _ => true
  | _ => false

/-- Whether a JSON extraction raised. -/
def isErrorE (r : Except PyError Json) : Bool :=
  match r with
  | .error _ => true
  | _ => false

/-- Concrete user records of the spec's two-page scenario. -/
def u1 : Json := .obj [("id", .int 1)]

/-- Second concrete user record. -/
def u2 : Json := .obj [("id", .int 2)]

/-- Third concrete user record. -/
def u3 : Json := .obj [("id", .int 3)]

/-- Page-1 body of the spec's two-page scenario:
`next_cursor 5`, users `[u1, u2]`. -/
def body1 : Json := .obj [("data", .obj [("follows", .obj
  [("next_cursor", .int 5), ("previous_cursor", .int 0), ("total_number", .int 3),
   ("users", .arr [u1, u2])])])]

/-- Page-2 body of the spec's two-page scenario:
`next_cursor 0` (last page), users `[u3]`. -/
def body2 : Json := .obj [("data", .obj [("follows", .obj
  [("next_cursor", .int 0), ("previous_cursor", .int 1), ("total_number", .int 3),
   ("users", .arr [u3])])])]

/-- A well-formed non-final page carrying only `u1`. -/
def bodyA : Json := .obj [("data", .obj [("follows", .obj
  [("next_cursor", .int 5), ("previous_cursor", .int 0), ("total_number", .int 2),
   ("users", .arr [u1])])])]

/-- Fields of a `follows` object whose `next_cursor` is the string
`"5"` instead of an integer. -/
def followsBadFields : List (String × Json) :=
  [("next_cursor", .str "5"), ("previous_cursor", .int 0), ("total_number", .int 3),
   ("users", .arr [u1])]

/-- A parseable body whose `next_cursor` is the string `"5"` instead
of an integer (the spec's malformed-cursor scenario). -/
def bodyBad : Json := .obj [("data", .obj [("follows", .obj followsBadFields)])]

/-- Successful response carrying `body1`. -/
def r1 : HttpResponse := { status_code := 200, text := "b1", json := some body1 }

/-- Successful response carrying `body2`. -/
def r2 : HttpResponse := { status_code := 200, text := "b2", json := some body2 }

/-- Successful response carrying `bodyA`. -/
def rA : HttpResponse := { status_code := 200, text := "bA", json := some bodyA }

/-- Successful response carrying the malformed-cursor body. -/
def rBad : HttpResponse := { status_code := 200, text := "badcursor", json := some bodyBad }

/-- HTTP 500 response. -/
def rErr : HttpResponse := { status_code := 500, text := "err", json := none }

/-- 200 response whose body is not valid JSON. -/
def rNoJson : HttpResponse := { status_code := 200, text := "<html>", json := none }

/-- Transport of the spec's two-page scenario (pages beyond 2 fail,
and are never reached). -/
def tC6 : Nat → HttpResponse := fun p =>
  if p == 1 then r1 else if p == 2 then r2 else rErr

/-- Transport where page 1 is fine, page 2 is unparseable, page 3
would be a fine final page. -/
def tC1 : Nat → HttpResponse := fun p =>
  if p == 1 then rA else if p == 2 then rNoJson else if p == 3 then r2 else rErr

/-- Transport where page 1 has the malformed cursor and every later
page fails at transport level. -/
def tC2a : Nat → HttpResponse := fun p => if p == 1 then rBad else rErr

/-- Transport where page 1 has the malformed cursor and page 2 is a
fine final page. -/
def tC2b : Nat → HttpResponse := fun p =>
  if p == 1 then rBad else if p == 2 then r2 else rErr

/-- Transport where page 1 is fine and page 2 returns HTTP 500. -/
def tC7 : Nat → HttpResponse := fun p => if p == 1 then r1 else rErr

/-- The ten artifact names `response1.json` … `response10.json` in
numeric page order. -/
def tenNames : List String :=
  ["response1.json", "response2.json", "response3.json", "response4.json",
   "response5.json", "response6.json", "response7.json", "response8.json",
   "response9.json", "response10.json"]

/-- Run directory holding pages 1 and 2 plus a raw-text fallback for
a failed page, in arbitrary listing order. -/
def wdirC4 : List (String × FileContent) :=
  [("response2.json", .jsonData body2), ("response1.txt", .rawText "oops"),
   ("response1.json", .jsonData body1)]

/-- Run directory with the ten page artifacts listed in reverse
order. -/
def wdirC5 : List (String × FileContent) :=
  tenNames.reverse.map (fun n => (n, FileContent.rawText ""))

/-- Run directory containing only a raw-text fallback artifact. -/
def wdirC8 : List (String × FileContent) := [("response1.txt", .rawText "notjson")]

/-- Run directory with a `.json` file whose name yields no numeric
sort key. -/
def wdirC10a : List (String × FileContent) := [("merged.json", .jsonData (.obj []))]

/-- Run directory with a well-named `.json` file whose body lacks the
`data.follows` path. -/
def wdirC10b : List (String × FileContent) :=
  [("response1.json", .jsonData (.obj [("data", .obj [])]))]

/-- Total version of the sort key, used to state sorting results
(value on names whose key extraction fails is irrelevant: those runs
raise instead). -/
def keyD (name : String) : Int :=
  match sortKeyOf name with
  | .ok k => k
  | .error _ => 0

/-- Specification-side extraction of a directory's user lists, name
by name: `some us` when every named file is a JSON file whose
`data.follows` is an object carrying a list under `users` (or no
`users` key, read as the empty list), with `us` the concatenation in
the given name order. -/
def dirUsers (dir : List (String × FileContent)) : List String → Option (List Json)
  | [] => some []
  | n :: rest =>
    match loadEntryUsers dir n with
    | .ok (Json.arr us) =>
      match dirUsers dir rest with
      | some tail => some (us ++ tail)
      | none => none
    | _ => none

/-- Specification-side form of the line-123 update: the template body
with only its `data.follows.users` field replaced (identity on bodies
without that path; such bodies raise instead of reaching the update). -/
def replaceUsers (b : Json) (us : List Json) : Json :=
  match b with
  | .obj tf =>
    match lookupA tf "data" with
    | some (.obj df) =>
      match lookupA df "follows" with
      | some (.obj ff) =>
        .obj (setKey tf "data"
          (.obj (setKey df "follows" (.obj (setKey ff "users" (.arr us))))))
      | _ => b
    | _ => b
  | _ => b

/-- Recognizer for string-valued JSON (used to state that a value is
not a file-path string). -/
def isStrJson : Json → Bool
  | .str _ => true
  | _ => false

/-- Key order used by the merge sort step. -/
def keyLE (a b : Int × String) : Prop := a.1 ≤ b.1

theorem insertByKey_perm (x : Int × String) (l : List (Int × String)) :
    List.Perm (insertByKey x l) (x :: l) := by
  induction l with
  | nil => simp [insertByKey]
  | cons y rest ih =>
    by_cases h : y.1 ≤ x.1
    · simpa [insertByKey, h] using ((ih.cons y).trans (List.Perm.swap x y rest))
    · simp [insertByKey, h]

theorem mem_insertByKey {x b : Int × String} {l : List (Int × String)}
    (hb : b ∈ insertByKey x l) : b = x ∨ b ∈ l := by
  have := (insertByKey_perm x l).mem_iff.mp hb
  simpa using this

theorem insertByKey_pairwise {x : Int × String} {l : List (Int × String)}
    (h : List.Pairwise keyLE l) : List.Pairwise keyLE (insertByKey x l) := by
  induction l with
  | nil => simp [insertByKey, List.pairwise_cons]
  | cons y rest ih =>
    rcases List.pairwise_cons.mp h with ⟨hy, hrest⟩
    by_cases hle : y.1 ≤ x.1
    · simp only [insertByKey, if_pos hle]
      refine List.pairwise_cons.mpr ⟨?_, ih hrest⟩
      intro b hb
      rcases mem_insertByKey hb with rfl | hb2
      · exact hle
      · exact hy b hb2
    · simp only [insertByKey, if_neg hle]
      refine List.pairwise_cons.mpr ⟨?_, h⟩
      intro b hb
      have hxy : x.1 ≤ y.1 := le_of_not_le hle
      rcases List.mem_cons.mp hb with rfl | hb2
      · exact hxy
      · exact le_trans hxy (hy b hb2)

theorem sortInsAll_perm (l : List (Int × String)) :
    ∀ acc, List.Perm (sortInsAll acc l) (acc ++ l) := by
  induction l with
  | nil => intro acc; simp [sortInsAll]
  | cons x rest ih =>
    intro acc
    have h1 : List.Perm (sortInsAll (insertByKey x acc) rest)
        (insertByKey x acc ++ rest) := ih (insertByKey x acc)
    have h2 : List.Perm (insertByKey x acc ++ rest) ((x :: acc) ++ rest) :=
      (insertByKey_perm x acc).append_right rest
    have h3 : List.Perm (acc ++ x :: rest) (x :: (acc ++ rest)) := List.perm_middle
    exact ((h1.trans h2).trans (by simp)).trans h3.symm

theorem sortInsAll_pairwise (l : List (Int × String)) :
    ∀ acc, List.Pairwise keyLE acc → List.Pairwise keyLE (sortInsAll acc l) := by
  induction l with
  | nil => intro acc h; simpa [sortInsAll] using h
  | cons x rest ih =>
    intro acc h
    exact ih (insertByKey x acc) (insertByKey_pairwise h)

theorem sortPairs_perm (l : List (Int × String)) : List.Perm (sortPairs l) l := by
  simpa [sortPairs] using sortInsAll_perm l []

theorem sortPairs_pairwise (l : List (Int × String)) :
    List.Pairwise keyLE (sortPairs l) := by
  exact sortInsAll_pairwise l [] (by simp)

theorem sortedPermEq :
    ∀ l₁ l₂ : List (Int × String), List.Pairwise keyLE l₁ → List.Pairwise keyLE l₂ →
      List.Perm l₁ l₂ → (l₂.map Prod.fst).Nodup → l₁ = l₂ := by
  intro l₁
  induction l₁ with
  | nil =>
    intro l₂ _ _ hperm _
    exact (hperm.symm.eq_nil).symm
  | cons x t₁ ih =>
    intro l₂ h₁ h₂ hperm hnd
    match l₂ with
    | [] => exact absurd hperm.eq_nil (by simp)
    | y :: t₂ =>
      rcases List.pairwise_cons.mp h₁ with ⟨hx, ht₁⟩
      rcases List.pairwise_cons.mp h₂ with ⟨hy, ht₂⟩
      rw [List.map_cons] at hnd
      rcases List.nodup_cons.mp hnd with ⟨hynotin, hndt⟩
      have hxy : x = y := by
        rcases List.mem_cons.mp (hperm.mem_iff.mp (List.mem_cons_self x t₁)) with h | hxt₂
        · exact h
        · rcases List.mem_cons.mp (hperm.symm.mem_iff.mp (List.mem_cons_self y t₂)) with h | hyt₁
          · exact h.symm
          · have h1 : x.1 ≤ y.1 := hx y hyt₁
            have h2 : y.1 ≤ x.1 := hy x hxt₂
            have hkey : y.1 = x.1 := le_antisymm h2 h1
            exact absurd (hkey ▸ List.mem_map_of_mem Prod.fst hxt₂) hynotin
      subst hxy
      have : t₁ = t₂ := ih t₂ ht₁ ht₂ hperm.cons_inv hndt
      rw [this]

theorem computeKeys_ok :
    ∀ names : List String, (∀ n ∈ names, sortKeyOf n = .ok (keyD n)) →
      computeKeys names = .ok (names.map (fun n => (keyD n, n))) := by
  intro names
  induction names with
  | nil => intro _; rfl
  | cons n rest ih =>
    intro h
    have hn := h n (List.mem_cons_self n rest)
    have hr := ih (fun m hm => h m (List.mem_cons_of_mem n hm))
    simp [computeKeys, hn, hr]

theorem computeKeys_sndMap :
    ∀ names ks, computeKeys names = .ok ks → ks.map Prod.snd = names := by
  intro names
  induction names with
  | nil =>
    intro ks h
    simp only [computeKeys] at h
    cases h
    rfl
  | cons n rest ih =>
    intro ks h
    simp only [computeKeys] at h
    cases hsk : sortKeyOf n with
    | error e => rw [hsk] at h; exact absurd h (by simp)
    | ok k =>
      rw [hsk] at h
      cases hck : computeKeys rest with
      | error e => rw [hck] at h; exact absurd h (by simp)
      | ok ks2 =>
        rw [hck] at h
        cases h
        simp [ih ks2 hck]

theorem computeKeys_error :
    ∀ names n, n ∈ names → sortKeyOf n = .error .valueError →
      ∃ e, computeKeys names = .error e := by
  intro names
  induction names with
  | nil => intro n h; exact absurd h (by simp)
  | cons m rest ih =>
    intro n hmem hbad
    cases hsk : sortKeyOf m with
    | error e => exact ⟨e, by simp [computeKeys, hsk]⟩
    | ok k =>
      have hne : n ≠ m := fun h => by rw [h, hsk] at hbad; cases hbad
      have hi : n ∈ rest := by
        rcases List.mem_cons.mp hmem with h | h
        · exact absurd h hne
        · exact h
      obtain ⟨e, he⟩ := ih n hi hbad
      exact ⟨e, by simp [computeKeys, hsk, he]⟩

theorem sortNames_ok {names : List String}
    (h : ∀ n ∈ names, sortKeyOf n = .ok (keyD n)) :
    sortNames names =
      .ok ((sortPairs (names.map (fun n => (keyD n, n)))).map Prod.snd) := by
  simp [sortNames, computeKeys_ok names h]

theorem sortNames_mem :
    ∀ names files, sortNames names = .ok files → ∀ n ∈ names, n ∈ files := by
  intro names files h n hn
  simp only [sortNames] at h
  cases hck : computeKeys names with
  | error e => rw [hck] at h; exact absurd h (by simp)
  | ok ks =>
    rw [hck] at h
    cases h
    have hsnd : ks.map Prod.snd = names := computeKeys_sndMap names ks hck
    have hperm : List.Perm ((sortPairs ks).map Prod.snd) (ks.map Prod.snd) :=
      (sortPairs_perm ks).map Prod.snd
    exact hperm.mem_iff.mpr (hsnd ▸ hn)

theorem loadAllUsers_ok {dir : List (String × FileContent)} :
    ∀ names us, dirUsers dir names = some us →
      ∀ acc, loadAllUsers dir names acc = .ok (acc ++ us) := by
  intro names
  induction names with
  | nil =>
    intro us h acc
    simp only [dirUsers] at h
    cases h
    simp [loadAllUsers]
  | cons n rest ih =>
    intro us h acc
    simp only [dirUsers] at h
    cases hle : loadEntryUsers dir n with
    | error e => rw [hle] at h; exact absurd h (by simp)
    | ok u =>
      rw [hle] at h
      match u with
      | .arr us0 =>
        cases hdu : dirUsers dir rest with
        | none => rw [hdu] at h; exact absurd h (by simp)
        | some tail =>
          rw [hdu] at h
          simp only [Option.some.injEq] at h
          subst h
          simp [loadAllUsers, hle, pyLen, pyExtend, ih tail hdu]
      | .null => exact absurd h (by simp)
      | .bool b => exact absurd h (by simp)
      | .int k => exact absurd h (by simp)
      | .str s => exact absurd h (by simp)
      | .obj fs => exact absurd h (by simp)

theorem loadAllUsers_error {dir : List (String × FileContent)} {e : PyError} :
    ∀ names n acc, n ∈ names → loadEntryUsers dir n = .error e →
      ∃ e2, loadAllUsers dir names acc = .error e2 := by
  intro names
  induction names with
  | nil => intro n acc h; exact absurd h (by simp)
  | cons m rest ih =>
    intro n acc hmem hbad
    cases hm : loadEntryUsers dir m with
    | error e0 => exact ⟨e0, by simp [loadAllUsers, hm]⟩
    | ok u =>
      have hne : n ≠ m := fun h => by rw [h, hm] at hbad; cases hbad
      have hi : n ∈ rest := by
        rcases List.mem_cons.mp hmem with h | h
        · exact absurd h hne
        · exact h
      cases hl : pyLen u with
      | error e0 => exact ⟨e0, by simp [loadAllUsers, hm, hl]⟩
      | ok k =>
        cases hx : pyExtend acc u with
        | error e0 => exact ⟨e0, by simp [loadAllUsers, hm, hl, hx]⟩
        | ok acc2 =>
          obtain ⟨e2, he2⟩ := ih n acc2 hi hbad
          exact ⟨e2, by simp [loadAllUsers, hm, hl, hx, he2]⟩

theorem pyGetItem_ok {j v : Json} {k : String} (h : pyGetItem j k = .ok v) :
    ∃ fields, j = .obj fields ∧ lookupA fields k = some v := by
  match j with
  | .obj fields =>
    refine ⟨fields, rfl, ?_⟩
    simp only [pyGetItem] at h
    cases hl : lookupA fields k with
    | none => rw [hl] at h; cases h
    | some w => rw [hl] at h; cases h; rfl
  | .null => exact absurd h (by simp [pyGetItem])
  | .bool b => exact absurd h (by simp [pyGetItem])
  | .int n => exact absurd h (by simp [pyGetItem])
  | .str s => exact absurd h (by simp [pyGetItem])
  | .arr xs => exact absurd h (by simp [pyGetItem])

theorem loadEntryUsers_dissect {dir : List (String × FileContent)} {n : String}
    {u : Json} (h : loadEntryUsers dir n = .ok u) :
    ∃ tf df ff, lookupF dir n = some (.jsonData (.obj tf)) ∧
      lookupA tf "data" = some (.obj df) ∧
      lookupA df "follows" = some (.obj ff) ∧
      u = (lookupA ff "users").getD (.arr []) := by
  simp only [loadEntryUsers] at h
  cases hop : openJson dir n with
  | error e => rw [hop] at h; cases h
  | ok body =>
    rw [hop] at h
    dsimp only at h
    cases hgd : pyGetItem body "data" with
    | error e => rw [hgd] at h; cases h
    | ok d =>
      rw [hgd] at h
      dsimp only at h
      cases hgf : pyGetItem d "follows" with
      | error e => rw [hgf] at h; cases h
      | ok f =>
        rw [hgf] at h
        match f with
        | .obj ff =>
          simp only [Except.ok.injEq] at h
          obtain ⟨tf, hbody, hlkd⟩ := pyGetItem_ok hgd
          obtain ⟨df, hd, hlkf⟩ := pyGetItem_ok hgf
          subst hbody hd
          refine ⟨tf, df, ff, ?_, hlkd, hlkf, h.symm⟩
          simp only [openJson] at hop
          cases hlf : lookupF dir n with
          | none => rw [hlf] at hop; cases hop
          | some c =>
            rw [hlf] at hop
            match c with
            | .jsonData j => cases hop; rfl
            | .rawText t => cases hop
        | .null => cases h
        | .bool b => cases h
        | .int k => cases h
        | .str s => cases h
        | .arr xs => cases h

theorem pySetUsers_ok {tf df ff : List (String × Json)} {us : List Json}
    (hd : lookupA tf "data" = some (.obj df))
    (hf : lookupA df "follows" = some (.obj ff)) :
    pySetUsers (.obj tf) us = .ok (replaceUsers (.obj tf) us) := by
  simp [pySetUsers, replaceUsers, hd, hf]

theorem processPage_of_badStatus {r : HttpResponse} (h : r.status_code ≠ 200) :
    processPage r = .breakRun := by
  simp [processPage, h]

theorem processPage_of_parseFail {r : HttpResponse} (h200 : r.status_code = 200)
    (hjson : r.json = none) : processPage r = .breakRun := by
  simp [processPage, h200, hjson]

theorem fetchLoop_break {t : Nat → HttpResponse} {page fuel : Nat}
    (h : processPage (t page) = .breakRun) :
    fetchLoop t (fuel + 1) page = ([], .finished) := by
  simp [fetchLoop, h]

theorem fetchLoop_stop {t : Nat → HttpResponse} {page fuel : Nat} {j : Json}
    (h : processPage (t page) = .saveJsonStop j) :
    fetchLoop t (fuel + 1) page = ([(page, .jsonFile j)], .finished) := by
  simp [fetchLoop, h]

theorem fetchLoop_next {t : Nat → HttpResponse} {page fuel : Nat} {j : Json}
    (h : processPage (t page) = .saveJsonNext j) :
    fetchLoop t (fuel + 1) page =
      ((page, .jsonFile j) :: (fetchLoop t fuel (page + 1)).1,
        (fetchLoop t fuel (page + 1)).2) := by
  simp [fetchLoop, h]

theorem fetchLoop_txt {t : Nat → HttpResponse} {page fuel : Nat} {s : String}
    (h : processPage (t page) = .saveTxt s) :
    fetchLoop t (fuel + 1) page =
      ((page, .txtFile s) :: (fetchLoop t fuel (page + 1)).1,
        (fetchLoop t fuel (page + 1)).2) := by
  simp [fetchLoop, h]

theorem fetchLoop_pages (t : Nat → HttpResponse) :
    ∀ fuel page, (fetchLoop t fuel page).1.map Prod.fst =
      List.range' page (fetchLoop t fuel page).1.length := by
  intro fuel
  induction fuel with
  | zero => intro page; rfl
  | succ f ih =>
    intro page
    cases hp : processPage (t page) with
    | breakRun => simp [fetchLoop, hp]
    | crash e => simp [fetchLoop, hp]
    | saveJsonStop j => simp [fetchLoop, hp, List.range']
    | saveTxt s =>
      rw [fetchLoop_txt hp]
      simp only [List.map_cons, List.length_cons, List.range']
      rw [ih (page + 1)]
    | saveJsonNext j =>
      rw [fetchLoop_next hp]
      simp only [List.map_cons, List.length_cons, List.range']
      rw [ih (page + 1)]

theorem fetchLoop_run_break {t : Nat → HttpResponse} {js : Nat → Json} :
    ∀ len page fuel,
      (∀ i, page ≤ i → i < page + len → processPage (t i) = .saveJsonNext (js i)) →
      processPage (t (page + len)) = .breakRun → len < fuel →
      fetchLoop t fuel page =
        ((List.range' page len).map (fun i => (i, Artifact.jsonFile (js i))),
          .finished) := by
  intro len
  induction len with
  | zero =>
    intro page fuel _ hbrk hfuel
    match fuel, hfuel with
    | f + 1, _ =>
      rw [fetchLoop_break (by simpa using hbrk)]
      rfl
  | succ l ih =>
    intro page fuel hgood hbrk hfuel
    match fuel, hfuel with
    | f + 1, hfuel =>
      have hpage : processPage (t page) = .saveJsonNext (js page) :=
        hgood page le_rfl (by omega)
      rw [fetchLoop_next hpage]
      have hrec := ih (page + 1) f
        (fun i h1 h2 => hgood i (by omega) (by omega))
        (by rw [show page + 1 + l = page + (l + 1) from by omega]; exact hbrk)
        (by omega)
      rw [hrec]
      simp [List.range']

theorem getAllFollow_finished {t : Nat → HttpResponse} {fuel : Nat}
    {arts : List (Nat × Artifact)} (now mergeNow : String)
    (h : fetchLoop t fuel 1 = (arts, .finished)) :
    get_all_follow t fuel now mergeNow =
      some (merge_follow_files (arts.map artifactEntry)
        ("raw/follow/" ++ now) mergeNow) := by
  simp [get_all_follow, h]

/-- C4: for every run directory with at least one structured (JSON)
artifact, `merge_follow_files` returns exactly the first (lowest page
number, per the numeric sort) artifact's full structured body with
only its `data.follows.users` field replaced by the concatenation of
every JSON artifact's user list in sorted page order, and writes it
under the run's timestamp label; raw-text fallback artifacts
contribute nothing (only `.json`-named files enter `listJsonNames`,
which is all the merge reads). -/
theorem mergeConcatenatesUsers {dir : List (String × FileContent)}
    {src now first : String} {rest : List String} {us : List Json} {b0 : Json}
    (hs : sortNames (listJsonNames dir) = .ok (first :: rest))
    (hb : lookupF dir first = some (.jsonData b0))
    (hdu : dirUsers dir (first :: rest) = some us) :
    merge_follow_files dir src now = .ok (some
      { output_file := "merged_follows_" ++ get_timestamp src now ++ ".json"
        retval := replaceUsers b0 us }) := by
  have hopen : openJson dir first = .ok b0 := by simp [openJson, hb]
  have hload : loadAllUsers dir (first :: rest) [] = .ok us := by
    simpa using loadAllUsers_ok (first :: rest) us hdu []
  have hhead : ∃ us0, loadEntryUsers dir first = .ok (.arr us0) := by
    simp only [dirUsers] at hdu
    cases hle : loadEntryUsers dir first with
    | error e => rw [hle] at hdu; cases hdu
    | ok u =>
      rw [hle] at hdu
      match u, hdu with
      | .arr us0, _ => exact ⟨us0, rfl⟩
  obtain ⟨us0, hle⟩ := hhead
  obtain ⟨tf, df, ff, hlf, hd, hf, _⟩ := loadEntryUsers_dissect hle
  have hb0 : b0 = .obj tf := by
    rw [hb] at hlf
    cases hlf
    rfl
  subst hb0
  have hset : pySetUsers (.obj tf) us = .ok (replaceUsers (.obj tf) us) :=
    pySetUsers_ok hd hf
  simp [merge_follow_files, hs, hopen, hload, hset]

/-- Witness for C4: a directory listing pages 2 and 1 out of order
next to a raw-text fallback merges into page 1's body with the users
of pages 1 and 2 concatenated; the fallback contributes nothing. -/
theorem mergeConcatenatesUsers_witness :
    merge_follow_files wdirC4 "raw/follow/20240101_120000" "NOW" = .ok (some
      { output_file := "merged_follows_20240101_120000.json"
        retval := replaceUsers body1 [u1, u2, u3] }) :=
  mergeConcatenatesUsers
    (show sortNames (listJsonNames wdirC4) =
      .ok ("response1.json" :: ["response2.json"]) from rfl)
    (show lookupF wdirC4 "response1.json" = some (.jsonData body1) from rfl)
    (show dirUsers wdirC4 ("response1.json" :: ["response2.json"]) =
      some [u1, u2, u3] from rfl)

/-- C5: for every run directory whose files are
`response1.json` … `response10.json` in any listing order, the merge
step's sorted file list is exactly the numeric page order — so
`response10.json` comes after `response9.json` (last), not after
`response1.json` as a lexical sort would place it. -/
theorem mergeNumericOrder (dir : List (String × FileContent))
    (h : List.Perm (dir.map Prod.fst) tenNames) :
    sortNames (listJsonNames dir) = .ok tenNames := by
  have hfilter : List.Perm (listJsonNames dir) tenNames := by
    have h2 := h.filter (fun n => pyEndsWith n ".json")
    rw [show tenNames.filter (fun n => pyEndsWith n ".json") = tenNames from rfl] at h2
    exact h2
  have hkeys : ∀ n ∈ listJsonNames dir, sortKeyOf n = .ok (keyD n) := by
    intro n hn
    have hmem : n ∈ tenNames := hfilter.mem_iff.mp hn
    have hall : ∀ m ∈ tenNames, sortKeyOf m = .ok (keyD m) := by
      intro m hm
      unfold tenNames at hm
      fin_cases hm <;> rfl
    exact hall n hmem
  rw [sortNames_ok hkeys]
  have hpermks : List.Perm ((listJsonNames dir).map (fun n => (keyD n, n)))
      (tenNames.map (fun n => (keyD n, n))) := hfilter.map _
  have hsorted : List.Pairwise keyLE
      (sortPairs ((listJsonNames dir).map (fun n => (keyD n, n)))) :=
    sortPairs_pairwise _
  have hsorted2 : List.Pairwise keyLE (tenNames.map (fun n => (keyD n, n))) := by
    unfold keyLE
    decide
  have hnodup : ((tenNames.map (fun n => (keyD n, n))).map Prod.fst).Nodup := by
    decide
  have heq : sortPairs ((listJsonNames dir).map (fun n => (keyD n, n))) =
      tenNames.map (fun n => (keyD n, n)) :=
    sortedPermEq _ _ hsorted hsorted2 ((sortPairs_perm _).trans hpermks) hnodup
  rw [heq]
  rfl

/-- Witness for C5: the ten page artifacts listed in reverse order
sort back to numeric page order. -/
theorem mergeNumericOrder_witness :
    sortNames (listJsonNames wdirC5) = .ok tenNames :=
  mergeNumericOrder wdirC5
    (by rw [show wdirC5.map Prod.fst = tenNames.reverse from rfl]
        exact tenNames.reverse_perm)

/-- C8: for every run directory with zero `.json`-named files — in
particular when every page artifact is a raw-text fallback —
`merge_follow_files` returns `None` (modelled `.ok none`) and writes
no merged output file (only the `.ok (some _)` branch writes). -/
theorem mergeEmptyWhenNoJson (dir : List (String × FileContent)) (src now : String)
    (h : ∀ n ∈ dir.map Prod.fst, pyEndsWith n ".json" = false) :
    merge_follow_files dir src now = .ok none := by
  have hnil : listJsonNames dir = [] := by
    unfold listJsonNames
    rw [List.filter_eq_nil_iff]
    intro a ha
    simp [h a ha]
  simp [merge_follow_files, hnil, sortNames, computeKeys, sortPairs, sortInsAll]

/-- Witness for C8: a run whose only artifact is the raw-text
fallback `response1.txt` merges to nothing. -/
theorem mergeEmptyWhenNoJson_witness :
    merge_follow_files wdirC8 "raw/follow/20240101_120000" "NOW" = .ok none :=
  mergeEmptyWhenNoJson wdirC8 "raw/follow/20240101_120000" "NOW" (by decide)

/-- C9: merging the same unmodified run directory is label-stable and
idempotent: when the directory path carries an `8 digits underscore 6
digits` timestamp, the merge result — output content and embedded run
label — does not depend on the merge-time clock, so re-running
produces identical output; and when no such pattern is present,
`get_timestamp` mints the fresh current-timestamp label instead. -/
theorem mergeIdempotentLabel (dir : List (String × FileContent))
    (src now1 now2 : String) :
    ((findTsFrom src.toList).isSome = true →
      merge_follow_files dir src now1 = merge_follow_files dir src now2)
    ∧ (findTsFrom src.toList = none → get_timestamp src now1 = now1) := by
  constructor
  · intro h
    have hts : get_timestamp src now1 = get_timestamp src now2 := by
      cases ho : findTsFrom src.toList with
      | none => rw [ho] at h; simp at h
      | some ts => unfold get_timestamp; rw [ho]
    simp only [merge_follow_files, hts]
  · intro h
    unfold get_timestamp
    rw [h]

/-- Witness for C9: with the timestamped run directory path the merge
result is independent of the clock value, and with a pattern-free
path the clock value is used as the label. -/
theorem mergeIdempotentLabel_witness :
    merge_follow_files wdirC4 "raw/follow/20240101_120000" "A" =
      merge_follow_files wdirC4 "raw/follow/20240101_120000" "B" ∧
    get_timestamp "nolabel" "20250101_000000" = "20250101_000000" :=
  ⟨(mergeIdempotentLabel wdirC4 "raw/follow/20240101_120000" "A" "B").1 (by rfl),
   (mergeIdempotentLabel wdirC4 "nolabel" "20250101_000000" "x").2 (by rfl)⟩

theorem sortKeyOf_error_shape {n : String} {e : PyError}
    (h : sortKeyOf n = .error e) : e = .valueError := by
  unfold sortKeyOf at h
  cases hp : pyIntOfStr (pyReplace (pyReplace n "response" "") ".json" "") with
  | none => rw [hp] at h; cases h; rfl
  | some k => rw [hp] at h; cases h

/-- C10: `merge_follow_files` is total only on directories whose
`.json` files carry an extractable numeric page key and the
`data.follows` path: a `.json` file whose name yields no numeric sort
key (stripping `response` and `.json` leaves no integer literal)
raises the `ValueError` from `int` inside `sorted`, and — even with
all keys extractable — a `.json` file whose body lacks the
`data.follows` path raises (`KeyError`/`TypeError`) out of the merge
loop; in both cases the function neither returns a result nor `None`. -/
theorem mergeRaisesOnBadNameOrMissingFollows
    (dir : List (String × FileContent)) (src now n : String) (b : Json) :
    (n ∈ listJsonNames dir → sortKeyOf n = .error .valueError →
      isErrorM (merge_follow_files dir src now) = true)
    ∧ ((∀ m ∈ listJsonNames dir, sortKeyOf m = .ok (keyD m)) →
      n ∈ listJsonNames dir → lookupF dir n = some (.jsonData b) →
      isErrorE (pyGetFollows b) = true →
      isErrorM (merge_follow_files dir src now) = true) := by
  constructor
  · intro hmem hbad
    obtain ⟨e, he⟩ := computeKeys_error (listJsonNames dir) n hmem hbad
    simp [merge_follow_files, sortNames, he, isErrorM]
  · intro hall hmem hlf hbadf
    have hsn := sortNames_ok hall
    have hmemf : n ∈ (sortPairs ((listJsonNames dir).map
        (fun m => (keyD m, m)))).map Prod.snd :=
      sortNames_mem (listJsonNames dir) _ hsn n hmem
    have hle : ∃ e, loadEntryUsers dir n = .error e := by
      have hopen : openJson dir n = .ok b := by simp [openJson, hlf]
      unfold pyGetFollows at hbadf
      cases hg : pyGetItem b "data" with
      | error e => exact ⟨e, by simp [loadEntryUsers, hopen, hg]⟩
      | ok d =>
        rw [hg] at hbadf
        dsimp only at hbadf
        cases hgf : pyGetItem d "follows" with
        | error e => exact ⟨e, by simp [loadEntryUsers, hopen, hg, hgf]⟩
        | ok f => rw [hgf] at hbadf; simp [isErrorE] at hbadf
    obtain ⟨e0, he0⟩ := hle
    cases hfl : (sortPairs ((listJsonNames dir).map
        (fun m => (keyD m, m)))).map Prod.snd with
    | nil => rw [hfl] at hmemf; cases hmemf
    | cons first rest =>
      rw [hfl] at hmemf
      cases hop : openJson dir first with
      | error e1 => simp [merge_follow_files, hsn, hfl, hop, isErrorM]
      | ok c =>
        obtain ⟨e2, he2⟩ :=
          loadAllUsers_error (first :: rest) n [] hmemf he0
        simp [merge_follow_files, hsn, hfl, hop, he2, isErrorM]

/-- Witness for C10: a directory containing `merged.json` (no numeric
key) raises, and one containing a well-named `response1.json` whose
body has no `follows` under `data` raises. -/
theorem mergeRaisesOnBadNameOrMissingFollows_witness :
    isErrorM (merge_follow_files wdirC10a "s" "n") = true ∧
    isErrorM (merge_follow_files wdirC10b "s" "n") = true :=
  ⟨(mergeRaisesOnBadNameOrMissingFollows wdirC10a "s" "n" "merged.json"
      (.obj [])).1 (by decide) (by rfl),
   (mergeRaisesOnBadNameOrMissingFollows wdirC10b "s" "n" "response1.json"
      (.obj [("data", .obj [])])).2
    (by intro m hm
        rw [show listJsonNames wdirC10b = ["response1.json"] from rfl] at hm
        fin_cases hm
        rfl)
    (by decide) (by rfl) (by rfl)⟩

/-- C6 (confirmed): the fetch loop starts at the given page and
advances page numbers by exactly one per processed page (the pages of
the written artifacts are the consecutive range from the start page);
a page whose successfully parsed and persisted body has
`next_cursor == 0` ends the run right after being persisted (its
artifact is the last one and the loop result does not depend on any
later page); and in the spec's concrete two-page scenario the run
stops after page 2 with merged users `[u1, u2, u3]`. -/
theorem loopPaginationAndStop (t : Nat → HttpResponse) (fuel page : Nat)
    (j : Json) (now mergeNow : String) :
    ((fetchLoop t fuel page).1.map Prod.fst =
      List.range' page (fetchLoop t fuel page).1.length)
    ∧ (processPage (t page) = .saveJsonStop j →
        fetchLoop t (fuel + 1) page = ([(page, .jsonFile j)], .finished))
    ∧ (t 1 = r1 → t 2 = r2 →
        fetchLoop t (fuel + 2) 1 =
          ([(1, .jsonFile body1), (2, .jsonFile body2)], .finished) ∧
        get_all_follow t (fuel + 2) now mergeNow = some (.ok (some
          { output_file := "merged_follows_" ++
              get_timestamp ("raw/follow/" ++ now) mergeNow ++ ".json"
            retval := replaceUsers body1 [u1, u2, u3] })) ∧
        mergedUsers (replaceUsers body1 [u1, u2, u3]) = some [u1, u2, u3]) := by
  refine ⟨fetchLoop_pages t fuel page, fetchLoop_stop, ?_⟩
  intro h1 h2
  have hp1 : processPage (t 1) = .saveJsonNext body1 := by rw [h1]; rfl
  have hp2 : processPage (t 2) = .saveJsonStop body2 := by rw [h2]; rfl
  have hl : fetchLoop t (fuel + 2) 1 =
      ([(1, .jsonFile body1), (2, .jsonFile body2)], .finished) := by
    show fetchLoop t (fuel + 1 + 1) 1 = _
    rw [fetchLoop_next hp1, fetchLoop_stop hp2]
  refine ⟨hl, ?_, rfl⟩
  rw [getAllFollow_finished now mergeNow hl]
  rfl

/-- Witness for C6: the two-page transport stops after page 2,
page 2 alone is a final page, and the merged users are
`[u1, u2, u3]`. -/
theorem loopPaginationAndStop_witness :
    fetchLoop tC6 10 2 = ([(2, .jsonFile body2)], .finished) ∧
    get_all_follow tC6 10 "20240101_120000" "NOW" = some (.ok (some
      { output_file := "merged_follows_20240101_120000.json"
        retval := replaceUsers body1 [u1, u2, u3] })) ∧
    mergedUsers (replaceUsers body1 [u1, u2, u3]) = some [u1, u2, u3] :=
  ⟨(loopPaginationAndStop tC6 9 2 body2 "x" "y").2.1 rfl,
   ((loopPaginationAndStop tC6 8 1 body2 "20240101_120000" "NOW").2.2 rfl rfl).2.1,
   ((loopPaginationAndStop tC6 8 1 body2 "20240101_120000" "NOW").2.2 rfl rfl).2.2⟩

/-- C7 (confirmed): a non-200 status logs and terminates the whole
loop at that page, with no artifact for it and no later page
requested (the loop value is independent of later pages); the pages
persisted before the failure are still merged — generally, and in the
concrete run where page 2 returns HTTP 500 the merge still yields
page 1's users (a partial export, not a discarded one). -/
theorem httpFailureStopsAndMergesPartial (t : Nat → HttpResponse)
    (k fuel : Nat) (js : Nat → Json) (now mergeNow : String) :
    ((t k).status_code ≠ 200 → ∀ f, fetchLoop t (f + 1) k = ([], .finished))
    ∧ ((∀ i, 1 ≤ i → i < k → processPage (t i) = .saveJsonNext (js i)) →
        (t k).status_code ≠ 200 → 1 ≤ k → k ≤ fuel →
        fetchLoop t fuel 1 =
          ((List.range' 1 (k - 1)).map (fun i => (i, Artifact.jsonFile (js i))),
            .finished) ∧
        get_all_follow t fuel now mergeNow = some (merge_follow_files
          (((List.range' 1 (k - 1)).map
            (fun i => (i, Artifact.jsonFile (js i)))).map artifactEntry)
          ("raw/follow/" ++ now) mergeNow))
    ∧ (t 1 = r1 → t 2 = rErr →
        get_all_follow t (fuel + 2) now mergeNow = some (.ok (some
          { output_file := "merged_follows_" ++
              get_timestamp ("raw/follow/" ++ now) mergeNow ++ ".json"
            retval := replaceUsers body1 [u1, u2] }))) := by
  refine ⟨?_, ?_, ?_⟩
  · intro h f
    exact fetchLoop_break (processPage_of_badStatus h)
  · intro hgood hbad h1 hfuel
    have hbrk : processPage (t (1 + (k - 1))) = .breakRun := by
      rw [show 1 + (k - 1) = k from by omega]
      exact processPage_of_badStatus hbad
    have hrun := fetchLoop_run_break (k - 1) 1 fuel
      (fun i hi1 hi2 => hgood i hi1 (by omega)) hbrk (by omega)
    exact ⟨hrun, getAllFollow_finished now mergeNow hrun⟩
  · intro h1 h2
    have hp1 : processPage (t 1) = .saveJsonNext body1 := by rw [h1]; rfl
    have hp2 : processPage (t 2) = .breakRun := by rw [h2]; rfl
    have hl : fetchLoop t (fuel + 2) 1 = ([(1, .jsonFile body1)], .finished) := by
      show fetchLoop t (fuel + 1 + 1) 1 = _
      rw [fetchLoop_next hp1, fetchLoop_break hp2]
    rw [getAllFollow_finished now mergeNow hl]
    rfl

/-- Witness for C7: page 2 returning HTTP 500 ends the run, and the
merge of the surviving page-1 artifact returns page 1's body with
users `[u1, u2]`. -/
theorem httpFailureStopsAndMergesPartial_witness :
    fetchLoop tC7 10 2 = ([], .finished) ∧
    fetchLoop tC7 10 1 = ([(1, .jsonFile body1)], .finished) ∧
    get_all_follow tC7 10 "20240101_120000" "NOW" = some (.ok (some
      { output_file := "merged_follows_20240101_120000.json"
        retval := replaceUsers body1 [u1, u2] })) :=
  ⟨(httpFailureStopsAndMergesPartial tC7 2 10 (fun _ => body1) "x" "y").1
      (by decide) 9,
   ((httpFailureStopsAndMergesPartial tC7 2 10 (fun _ => body1) "x" "y").2.1
      (by intro i hi1 hi2
          have : i = 1 := by omega
          subst this
          rfl)
      (by decide) (by omega) (by omega)).1,
   (httpFailureStopsAndMergesPartial tC7 2 8 (fun _ => body1)
      "20240101_120000" "NOW").2.2 rfl rfl⟩

/-- C1 is contradicted by the code: in `get_all_follow` a JSON parse
failure (`response.json()` raising `ValueError`, line 57) hits
`break` at line 62 — it does not write any fallback artifact and does
not continue.  Amended claim (proved): for every page whose 200
response body fails to parse as JSON, the loop logs and terminates
the whole run at that page, persisting nothing for it; consequently,
when pages `1..k-1` parse and persist fine and page `k` fails to
parse, the run directory holds exactly pages `1..k-1` and the merge
runs over them alone — so the merged user list is the concatenation
of the user lists of the pages before `k`, as the concrete
page-2-unparseable scenario shows (`[u1]`, from page 1 only). -/
theorem parseFailureTerminatesRun (t : Nat → HttpResponse) (k fuel : Nat)
    (js : Nat → Json) (now mergeNow : String) :
    ((t k).status_code = 200 → (t k).json = none →
      (∀ i, 1 ≤ i → i < k → processPage (t i) = .saveJsonNext (js i)) →
      1 ≤ k → k ≤ fuel →
      fetchLoop t fuel 1 =
        ((List.range' 1 (k - 1)).map (fun i => (i, Artifact.jsonFile (js i))),
          .finished) ∧
      get_all_follow t fuel now mergeNow = some (merge_follow_files
        (((List.range' 1 (k - 1)).map
          (fun i => (i, Artifact.jsonFile (js i)))).map artifactEntry)
        ("raw/follow/" ++ now) mergeNow))
    ∧ (t 1 = rA → t 2 = rNoJson →
        get_all_follow t (fuel + 2) now mergeNow = some (.ok (some
          { output_file := "merged_follows_" ++
              get_timestamp ("raw/follow/" ++ now) mergeNow ++ ".json"
            retval := replaceUsers bodyA [u1] }))) := by
  constructor
  · intro h200 hnone hgood h1 hfuel
    have hbrk : processPage (t (1 + (k - 1))) = .breakRun := by
      rw [show 1 + (k - 1) = k from by omega]
      exact processPage_of_parseFail h200 hnone
    have hrun := fetchLoop_run_break (k - 1) 1 fuel
      (fun i hi1 hi2 => hgood i hi1 (by omega)) hbrk (by omega)
    exact ⟨hrun, getAllFollow_finished now mergeNow hrun⟩
  · intro h1 h2
    have hp1 : processPage (t 1) = .saveJsonNext bodyA := by rw [h1]; rfl
    have hp2 : processPage (t 2) = .breakRun := by rw [h2]; rfl
    have hl : fetchLoop t (fuel + 2) 1 = ([(1, .jsonFile bodyA)], .finished) := by
      show fetchLoop t (fuel + 1 + 1) 1 = _
      rw [fetchLoop_next hp1, fetchLoop_break hp2]
    rw [getAllFollow_finished now mergeNow hl]
    rfl

/-- Witness for the amended C1: with page 1 fine and page 2
unparseable, the run holds exactly the page-1 artifact and merges to
page 1's users alone. -/
theorem parseFailureTerminatesRun_witness :
    fetchLoop tC1 10 1 = ([(1, .jsonFile bodyA)], .finished) ∧
    get_all_follow tC1 10 "20240101_120000" "NOW" = some (.ok (some
      { output_file := "merged_follows_20240101_120000.json"
        retval := replaceUsers bodyA [u1] })) :=
  ⟨((parseFailureTerminatesRun tC1 2 10 (fun _ => bodyA) "x" "y").1
      rfl rfl
      (by intro i hi1 hi2
          have : i = 1 := by omega
          subst this
          rfl)
      (by omega) (by omega)).1,
   (parseFailureTerminatesRun tC1 2 8 (fun _ => bodyA)
      "20240101_120000" "NOW").2 rfl rfl⟩

/-- Counterexample to C1 as stated: in the run where page 1 is fine,
page 2's body does not parse and page 3 would be a fine final page,
the loop writes no fallback artifact for page 2 and never reaches
page 3 (the artifact list is exactly page 1), and the merged user
list is `[u1]` — not the claim's concatenation of all pages except
page 2, which would be `[u1, u3]`. -/
theorem parseFailureSkip_counterexample :
    fetchLoop tC1 10 1 = ([(1, .jsonFile bodyA)], .finished) ∧
    mergedUsers (replaceUsers bodyA [u1]) = some [u1] ∧
    [u1] ≠ [u1, u3] :=
  ⟨rfl, rfl, by simp⟩

/-- C2 is contradicted by the code: the `ValueError` raised at line 73
for a missing or non-integer cursor field is caught by the handler at
line 86, which writes the raw response text to `response<page>.txt`
and lets the loop continue with the next page; the merge still runs
afterwards.  Amended claim (proved): for every page whose body parses
and whose `data.follows` object is present but has a cursor field
missing or non-integer, the loop persists the raw text as a
page-numbered `.txt` fallback and continues to the next page number —
no fatal error is raised for the run, and once the loop finishes the
merge is still performed on the run directory.  (Only a body lacking
the `data.follows` path itself escapes as an uncaught `KeyError`/
`TypeError`.) -/
theorem malformedCursorSavesTxtAndContinues (t : Nat → HttpResponse)
    (page fuel : Nat) (j d : Json) (fields : List (String × Json)) (L : Nat)
    (now mergeNow : String) :
    ((t page).status_code = 200 → (t page).json = some j →
      pyGetItem j "data" = .ok d → pyGetItem d "follows" = .ok (.obj fields) →
      pyLen ((lookupA fields "users").getD (Json.arr [])) = .ok L →
      (pyIsInt (lookupA fields "next_cursor") &&
        pyIsInt (lookupA fields "previous_cursor") &&
        pyIsInt (lookupA fields "total_number")) = false →
      processPage (t page) = .saveTxt (t page).text ∧
      fetchLoop t (fuel + 1) page =
        ((page, .txtFile (t page).text) :: (fetchLoop t fuel (page + 1)).1,
          (fetchLoop t fuel (page + 1)).2))
    ∧ ((fetchLoop t fuel 1).2 = .finished →
        get_all_follow t fuel now mergeNow = some (merge_follow_files
          ((fetchLoop t fuel 1).1.map artifactEntry)
          ("raw/follow/" ++ now) mergeNow)) := by
  constructor
  · intro h200 hjson hd hf hlen hbad
    have hp : processPage (t page) = .saveTxt (t page).text := by
      simp [processPage, h200, hjson, hd, hf, hlen, hbad]
    exact ⟨hp, fetchLoop_txt hp⟩
  · intro h
    have heq : fetchLoop t fuel 1 = ((fetchLoop t fuel 1).1, .finished) := by
      rw [← h]
    exact getAllFollow_finished now mergeNow heq

/-- Witness for the amended C2: the spec's malformed-cursor page 1
is persisted as `response1.txt`, and the run still merges (to `None`
here, since the only artifact is the fallback). -/
theorem malformedCursorSavesTxtAndContinues_witness :
    fetchLoop tC2a 10 1 = ([(1, .txtFile "badcursor")], .finished) ∧
    get_all_follow tC2a 10 "20240101_120000" "NOW" = some (.ok none) :=
  ⟨(((malformedCursorSavesTxtAndContinues tC2a 1 9 bodyBad
      (.obj [("follows", .obj followsBadFields)]) followsBadFields 1 "x" "y").1
      rfl rfl rfl rfl rfl rfl).2).trans (by rfl),
   ((malformedCursorSavesTxtAndContinues tC2a 1 10 bodyBad
      (.obj [("follows", .obj followsBadFields)]) followsBadFields 1
      "20240101_120000" "NOW").2 rfl).trans (by rfl)⟩

/-- Counterexample to C2 as stated: with the spec's malformed-cursor
page 1, an artifact *is* persisted for that page
(`response1.txt`), the next page number *is* attempted (with a fine
final page 2 the run holds both artifacts), and the merge *is*
performed (returning page 2's body here, with no exception). -/
theorem malformedCursorFatal_counterexample :
    fetchLoop tC2a 10 1 = ([(1, .txtFile "badcursor")], .finished) ∧
    fetchLoop tC2b 10 1 =
      ([(1, .txtFile "badcursor"), (2, .jsonFile body2)], .finished) ∧
    get_all_follow tC2b 10 "20240101_120000" "NOW" = some (.ok (some
      { output_file := "merged_follows_20240101_120000.json"
        retval := replaceUsers body2 [u3] })) ∧
    isErrorM (.ok (some
      { output_file := "merged_follows_20240101_120000.json"
        retval := replaceUsers body2 [u3] })) = false :=
  ⟨rfl, rfl, rfl, rfl⟩

/-- C3 names a code bug: `merge_follow_files` (line 133) returns
`first_json_content` — the merged JSON structure — not the path of
the file it wrote, and `get_all_follow` (line 97) passes that value
through under the misleading name `output_file`; the downstream
`compress_and_commit` expects a path (`os.path.basename`) and would
fail on this value.  The theorem evaluates the pipeline at the
two-page scenario: the returned value (`retval`) is the merged
object, not a string, while the written path is the separate
`merged_follows_<timestamp>.json`. -/
theorem mergeReturnsContentNotPath :
    get_all_follow tC6 10 "20240101_120000" "NOW" = some (.ok (some
      { output_file := "merged_follows_20240101_120000.json"
        retval := replaceUsers body1 [u1, u2, u3] })) ∧
    isStrJson (replaceUsers body1 [u1, u2, u3]) = false :=
  ⟨rfl, rfl⟩

end FollowSvc
